import Mathlib

/-!
# Verification of the NGO impact tracker's CSV ingestion core

A shallow embedding, in Lean 4, of the ingestion pipeline and its
collaborators from the `ngo-impact-tracker` repository:

* `validateHeaders`, `validateRow`, `processCSVFile` from the CSV
  processor service (`csvProcessor.js`);
* `validateReport` and the dashboard route's pagination parsing from the
  routes module;
* `insertOrUpdateReport`, `getFilteredReports`,
  `getFilteredDashboardStats` from `database.js` (the SQL statements are
  modelled over an in-memory list of rows, with SQLite's documented
  semantics: `ON CONFLICT ... DO UPDATE` upsert, ASCII-case-insensitive
  `LIKE`, binary collation for `TEXT` comparison).

JavaScript value conventions used throughout: a CSV cell read through
`csv-parse` with `columns: true, trim: true` is a trimmed string; a field
absent from a row object is `undefined`, modelled as `Option.none`.
`parseInt` / `parseFloat` are modelled on decimal inputs (the model does
not implement the JS extras irrelevant to this domain: hexadecimal `0x`
prefixes, exponent notation, `Infinity`); `NaN` results are `Option.none`.
-/

/-- Whitespace trim on a character list (both ends). -/
def trimChars (cs : List Char) : List Char :=
  ((cs.dropWhile Char.isWhitespace).reverse.dropWhile Char.isWhitespace).reverse

/-- JS `s.trim()` (ASCII whitespace; the strings of this domain are ASCII). -/
def trimString (s : String) : String :=
  ⟨trimChars s.toList⟩

/-- JS `s.toLowerCase()` (ASCII case folding; the headers of this domain
are ASCII). -/
def lowerString (s : String) : String :=
  ⟨s.toList.map Char.toLower⟩

/-- JS `String(x)` coercion for a string-or-undefined value. -/
def jsString : Option String → String
  | none => "undefined"
  | some s => s

/-- JS falsiness of a string-or-undefined value (`!x`): `undefined` and the
empty string are falsy, every other string is truthy. -/
def jsFalsy : Option String → Bool
  | none => true
  | some s => s == ""

/-- Numeric value of a non-empty list of decimal digit characters. -/
def digitsToNat (ds : List Char) : Nat :=
  ds.foldl (fun a c => a * 10 + (c.toNat - '0'.toNat)) 0

/-- An exact rational value `num / den`, kept normalized (coprime, positive
denominator) by the smart constructor `mkDec`. It stands in for the JS
double / SQLite `REAL` of `funds_utilized`; the finitely many decimal
values this domain produces are represented exactly. -/
structure Dec where
  num : Int
  den : Nat
deriving Repr, DecidableEq

/-- Euclid's algorithm with explicit fuel (structural recursion, so it
evaluates inside the kernel). -/
def gcdFuel : Nat → Nat → Nat → Nat
  | 0, a, _ => a
  | fuel + 1, a, b => if b = 0 then a else gcdFuel fuel b (a % b)

/-- Normalizing constructor for `Dec` (expects `d ≠ 0`). -/
def mkDec (n : Int) (d : Nat) : Dec :=
  if d = 0 then ⟨0, 1⟩
  else
    let g := gcdFuel (n.natAbs + d + 1) n.natAbs d
    ⟨n / (g : Int), d / g⟩

/-- Negation of an exact value (normalization is preserved). -/
def Dec.neg (a : Dec) : Dec := ⟨-a.num, a.den⟩

/-- Addition of exact values (used by the aggregate-query model). -/
def Dec.add (a b : Dec) : Dec :=
  mkDec (a.num * (b.den : Int) + b.num * (a.den : Int)) (a.den * b.den)

/-- JS `parseInt(s)` (radix 10): skip leading whitespace, read an optional
sign and then the longest prefix of decimal digits; `none` models `NaN`
(no digits). -/
def parseIntJS (s : String) : Option Int :=
  let cs := trimChars s.toList
  match cs with
  | '-' :: rest =>
      let ds := rest.takeWhile Char.isDigit
      if ds.isEmpty then none else some (-(digitsToNat ds : Int))
  | '+' :: rest =>
      let ds := rest.takeWhile Char.isDigit
      if ds.isEmpty then none else some (digitsToNat ds : Int)
  | _ =>
      let ds := cs.takeWhile Char.isDigit
      if ds.isEmpty then none else some (digitsToNat ds : Int)

/-- JS `parseFloat(s)` on decimal literals: optional sign, integer digits,
optional `.` and fraction digits; the longest such prefix is parsed and
everything after it is ignored. `none` models `NaN` (no digits at all).
The exact rational value is used in place of the IEEE double. -/
def parseFloatJS (s : String) : Option Dec :=
  let cs := trimChars s.toList
  let signed : Bool × List Char :=
    match cs with
    | '-' :: rest => (true, rest)
    | '+' :: rest => (false, rest)
    | _ => (false, cs)
  let intDs := signed.2.takeWhile Char.isDigit
  let afterInt := signed.2.drop intDs.length
  let fracDs :=
    match afterInt with
    | '.' :: rest => rest.takeWhile Char.isDigit
    | _ => []
  if intDs.isEmpty && fracDs.isEmpty then none
  else
    let mag := mkDec (digitsToNat intDs * 10 ^ fracDs.length + digitsToNat fracDs : Nat) (10 ^ fracDs.length)
    some (if signed.1 then mag.neg else mag)

/-- JS `x || d` for a number-or-NaN `x` (`NaN` and `0` are falsy). -/
def jsOrInt (v : Option Int) (d : Int) : Int :=
  match v with
  | none => d
  | some n => if n = 0 then d else n

/-- JS `x || d` for the decimal variant. -/
def jsOrDec (v : Option Dec) (d : Dec) : Dec :=
  match v with
  | none => d
  | some q => if q.num = 0 then d else q

/-- The regex `/^\d{4}-\d{2}$/`: exactly four digits, `-`, two digits. -/
def isYYYYMM (s : String) : Bool :=
  match s.toList with
  | [a, b, c, d, '-', e, f] =>
      a.isDigit && b.isDigit && c.isDigit && d.isDigit && e.isDigit && f.isDigit
  | _ => false

/-- A parsed CSV row object (`csv-parse` with `columns: true`): an
association list from header name to cell string, in header order. -/
abbrev Row := List (String × String)

/-- JS property access `row[k]`: `none` models `undefined`. -/
def getField (row : Row) (k : String) : Option String :=
  (row.find? (fun p => p.1 == k)).map (fun p => p.2)

/-- `REQUIRED_HEADERS` from the CSV processor. -/
def REQUIRED_HEADERS : List String :=
  ["ngo_id", "month", "people_helped", "events_conducted", "funds_utilized"]

/-- `validateHeaders(headers)`: lowercase and trim each observed header,
collect the required names that are absent, and report them comma-joined.
`none` is the valid verdict; `some msg` is the failure message. -/
def validateHeaders (headers : List String) : Option String :=
  let normalizedHeaders := headers.map (fun h => trimString (lowerString h))
  let missingHeaders := REQUIRED_HEADERS.filter (fun required => !(normalizedHeaders.contains required))
  if missingHeaders.length > 0 then
    some ("Missing required columns: " ++ String.intercalate ", " missingHeaders)
  else
    none

/-- A normalized metrics record (the `data` object built by the row
validators, and the shape stored in the `reports` table). -/
structure ReportData where
  ngo_id : String
  month : String
  people_helped : Int
  events_conducted : Int
  funds_utilized : Dec
deriving Repr, DecidableEq

/-- The verdict object returned by `validateRow` / `validateReport`. -/
structure RowValidation where
  isValid : Bool
  errors : List String
  data : ReportData
deriving Repr, DecidableEq

/-- `validateRow(row, rowIndex)` from the CSV processor: field-wise checks
collecting every applicable message (row-indexed), plus the normalized
`data` object built unconditionally with JS `|| 0` fallbacks. -/
def validateRow (row : Row) (rowIndex : Nat) : RowValidation :=
  let ngoV := getField row "ngo_id"
  let monthV := getField row "month"
  let e1 :=
    if jsFalsy ngoV || trimString (jsString ngoV) == "" then
      ["Row " ++ toString rowIndex ++ ": NGO ID is required"]
    else []
  let e2 :=
    if jsFalsy monthV || trimString (jsString monthV) == "" then
      ["Row " ++ toString rowIndex ++ ": Month is required"]
    else if !isYYYYMM (trimString (jsString monthV)) then
      ["Row " ++ toString rowIndex ++ ": Month must be in YYYY-MM format"]
    else []
  let peopleHelped := parseIntJS (jsString (getField row "people_helped"))
  let e3 :=
    match peopleHelped with
    | none => ["Row " ++ toString rowIndex ++ ": People Helped must be a non-negative number"]
    | some n => if n < 0 then ["Row " ++ toString rowIndex ++ ": People Helped must be a non-negative number"] else []
  let eventsConducted := parseIntJS (jsString (getField row "events_conducted"))
  let e4 :=
    match eventsConducted with
    | none => ["Row " ++ toString rowIndex ++ ": Events Conducted must be a non-negative number"]
    | some n => if n < 0 then ["Row " ++ toString rowIndex ++ ": Events Conducted must be a non-negative number"] else []
  let fundsUtilized := parseFloatJS (jsString (getField row "funds_utilized"))
  let e5 :=
    match fundsUtilized with
    | none => ["Row " ++ toString rowIndex ++ ": Funds Utilized must be a non-negative number"]
    | some q => if q.num < 0 then ["Row " ++ toString rowIndex ++ ": Funds Utilized must be a non-negative number"] else []
  let errors := e1 ++ e2 ++ e3 ++ e4 ++ e5
  { isValid := errors.isEmpty
    errors := errors
    data :=
      { ngo_id := trimString (jsString ngoV)
        month := trimString (jsString monthV)
        people_helped := jsOrInt peopleHelped 0
        events_conducted := jsOrInt eventsConducted 0
        funds_utilized := jsOrDec fundsUtilized ⟨0, 1⟩ } }

/-- `validateReport(data)` from the routes module (the single-record
submission path): the same field rules as `validateRow`, with un-indexed
messages and a different month-format message text. -/
def validateReport (data : Row) : RowValidation :=
  let ngoV := getField data "ngo_id"
  let monthV := getField data "month"
  let e1 :=
    if jsFalsy ngoV || trimString (jsString ngoV) == "" then
      ["NGO ID is required"]
    else []
  let e2 :=
    if jsFalsy monthV || trimString (jsString monthV) == "" then
      ["Month is required"]
    else if !isYYYYMM (trimString (jsString monthV)) then
      ["Month must be in YYYY-MM format (e.g., 2024-01)"]
    else []
  let peopleHelped := parseIntJS (jsString (getField data "people_helped"))
  let e3 :=
    match peopleHelped with
    | none => ["People Helped must be a non-negative number"]
    | some n => if n < 0 then ["People Helped must be a non-negative number"] else []
  let eventsConducted := parseIntJS (jsString (getField data "events_conducted"))
  let e4 :=
    match eventsConducted with
    | none => ["Events Conducted must be a non-negative number"]
    | some n => if n < 0 then ["Events Conducted must be a non-negative number"] else []
  let fundsUtilized := parseFloatJS (jsString (getField data "funds_utilized"))
  let e5 :=
    match fundsUtilized with
    | none => ["Funds Utilized must be a non-negative number"]
    | some q => if q.num < 0 then ["Funds Utilized must be a non-negative number"] else []
  let errors := e1 ++ e2 ++ e3 ++ e4 ++ e5
  { isValid := errors.isEmpty
    errors := errors
    data :=
      { ngo_id := trimString (jsString ngoV)
        month := trimString (jsString monthV)
        people_helped := jsOrInt peopleHelped 0
        events_conducted := jsOrInt eventsConducted 0
        funds_utilized := jsOrDec fundsUtilized ⟨0, 1⟩ } }


/-- The record store: the rows of the `reports` table (insertion order).
Only the five business columns are modelled; `id` and the timestamps play
no role in the verified properties. -/
abbrev Store := List ReportData

/-- The key test of the `UNIQUE(ngo_id, month)` constraint. -/
def keyMatches (r : ReportData) (ngoId month : String) : Bool :=
  r.ngo_id == ngoId && r.month == month

/-- `insertOrUpdateReport`: the prepared
`INSERT ... ON CONFLICT(ngo_id, month) DO UPDATE SET ...` statement. If a
row with the key exists, its three numeric columns are overwritten;
otherwise a new row is appended. -/
def insertOrUpdateReport (store : Store) (d : ReportData) : Store :=
  if store.any (fun r => keyMatches r d.ngo_id d.month) then
    store.map (fun r =>
      if keyMatches r d.ngo_id d.month then
        { r with
            people_helped := d.people_helped
            events_conducted := d.events_conducted
            funds_utilized := d.funds_utilized }
      else r)
  else
    store ++ [d]

/-- One persisted job row (the `jobs` table record as written by
`updateJobProgress` / `createJob`). -/
structure JobState where
  total_rows : Nat
  processed_rows : Nat
  successful_rows : Nat
  failed_rows : Nat
  errors : List String
  status : String
deriving Repr, DecidableEq

/-- The summary object `processCSVFile` resolves with. -/
structure Summary where
  totalRows : Nat
  successfulRows : Nat
  failedRows : Nat
  errors : List String
deriving Repr, DecidableEq

deriving instance DecidableEq for Except

/-- Everything observable about one pipeline run: the sequence of job
states persisted by the run (in write order), the record store afterward,
and the promise outcome (`Except.error` models rejection). -/
structure PipelineOutput where
  states : List JobState
  store : Store
  outcome : Except String Summary
deriving Repr, DecidableEq

/-- The job row written by `setJobFailed(jobId, errorMessage)`. -/
def failedJobState (msg : String) : JobState :=
  { total_rows := 0
    processed_rows := 0
    successful_rows := 0
    failed_rows := 0
    errors := [msg]
    status := "failed" }

/-- The job row created by `createJob.run(jobId, 0)` before processing
(status `pending`, all counters zero, empty error list). -/
def pendingJobState : JobState :=
  { total_rows := 0
    processed_rows := 0
    successful_rows := 0
    failed_rows := 0
    errors := []
    status := "pending" }

/-- The message of the zero-data-rows path. -/
def emptyCsvMessage : String := "CSV file is empty or contains no data rows"

/-- The mutable locals of the row-processing loop in `processCSVFile`
(`processedRows`, `successfulRows`, `failedRows`, `errors`) together with
the record store they act on. -/
structure LoopAcc where
  processed : Nat
  successful : Nat
  failed : Nat
  errors : List String
  store : Store

/-- One iteration of the row loop: validate, then either upsert (counting
a success, or a failure if the store throws — `dbErr` is the oracle for
`insertOrUpdateReport.run` throwing at a given row index) or count the
row as failed and append its validation messages; `processedRows` is
incremented in every case. -/
def processRow (dbErr : Nat → Option String) (acc : LoopAcc) (idx : Nat) (row : Row) : LoopAcc :=
  let validation := validateRow row idx
  if validation.isValid then
    match dbErr idx with
    | none =>
        { acc with
            processed := acc.processed + 1
            successful := acc.successful + 1
            store := insertOrUpdateReport acc.store validation.data }
    | some m =>
        { acc with
            processed := acc.processed + 1
            failed := acc.failed + 1
            errors := acc.errors ++ ["Row " ++ toString idx ++ ": Database error - " ++ m] }
  else
    { acc with
        processed := acc.processed + 1
        failed := acc.failed + 1
        errors := acc.errors ++ validation.errors }

/-- The progress snapshot persisted by `updateJobProgress.run` at the end
of a loop iteration. -/
def snapState (total : Nat) (acc : LoopAcc) : JobState :=
  { total_rows := total
    processed_rows := acc.processed
    successful_rows := acc.successful
    failed_rows := acc.failed
    errors := acc.errors
    status := if acc.processed = total then "completed" else "processing" }

/-- The row loop of `processCSVFile`: processes the buffered rows in
order (1-based indices), returning the persisted snapshots in write order
and the final loop state. -/
def rowLoop (dbErr : Nat → Option String) (total : Nat) :
    List Row → Nat → LoopAcc → List JobState × LoopAcc
  | [], _, acc => ([], acc)
  | row :: rest, idx, acc =>
      let acc' := processRow dbErr acc idx row
      let next := rowLoop dbErr total rest (idx + 1) acc'
      (snapState total acc' :: next.1, next.2)

/-- `processCSVFile(filePath, jobId)`, modelled after `csv-parse` has
turned the byte stream into a header list and the per-record value lists
(`columns: true, skip_empty_lines: true, trim: true`; each record object
therefore pairs the header names with the record's trimmed cells). The
three exit paths of the source are reproduced: no data records at all;
header validation failing on the first record; and the two-pass
processing of the buffered rows. -/
def processCSVFile (dbErr : Nat → Option String) (headers : List String)
    (values : List (List String)) (store : Store) : PipelineOutput :=
  if values.isEmpty then
    { states := [failedJobState emptyCsvMessage]
      store := store
      outcome := Except.ok
        { totalRows := 0, successfulRows := 0, failedRows := 0, errors := [emptyCsvMessage] } }
  else
    match validateHeaders headers with
    | some err =>
        { states := [failedJobState err]
          store := store
          outcome := Except.error err }
    | none =>
        let rows := values.map (fun v => headers.zip v)
        let totalRows := rows.length
        let initial : JobState :=
          { total_rows := totalRows
            processed_rows := 0
            successful_rows := 0
            failed_rows := 0
            errors := []
            status := "processing" }
        let run := rowLoop dbErr totalRows rows 1
          { processed := 0, successful := 0, failed := 0, errors := [], store := store }
        { states := initial :: run.1
          store := run.2.store
          outcome := Except.ok
            { totalRows := totalRows
              successfulRows := run.2.successful
              failedRows := run.2.failed
              errors := run.2.errors } }

/-- The full sequence of persisted states of one upload's job: the
`pending` row written by the upload route, then every state written by
the background pipeline run. -/
def jobTrace (dbErr : Nat → Option String) (headers : List String)
    (values : List (List String)) (store : Store) : List JobState :=
  pendingJobState :: (processCSVFile dbErr headers values store).states

/-- Three-way comparison of character lists: SQLite's `BINARY` collation
on the ASCII strings of this domain (memcmp on UTF-8 bytes). -/
def charListCmp : List Char → List Char → Ordering
  | [], [] => Ordering.eq
  | [], _ :: _ => Ordering.lt
  | _ :: _, [] => Ordering.gt
  | a :: as, b :: bs =>
      if a < b then Ordering.lt
      else if b < a then Ordering.gt
      else charListCmp as bs

/-- SQLite `a <= b` on `TEXT` values (`BINARY` collation). -/
def strLe (a b : String) : Bool :=
  charListCmp a.toList b.toList != Ordering.gt

/-- SQLite's ASCII case folding (the one the default `LIKE` uses). -/
def lowerAscii (c : Char) : Char :=
  if 'A' ≤ c && c ≤ 'Z' then Char.ofNat (c.toNat + 32) else c

/-- SQLite's default `LIKE` pattern matcher: `%` matches any sequence,
`_` any single character, and literals compare ASCII-case-insensitively. -/
def likeMatch : List Char → List Char → Bool
  | [], cs => cs.isEmpty
  | p :: ps, cs =>
      if p = '%' then
        match cs with
        | [] => likeMatch ps []
        | c :: cs' => likeMatch ps (c :: cs') || likeMatch (p :: ps) cs'
      else
        match cs with
        | [] => false
        | c :: cs' => (if p = '_' then true else lowerAscii p == lowerAscii c) && likeMatch ps cs'
termination_by ps cs => ps.length + cs.length
decreasing_by all_goals simp_arith [*]

/-- The pattern the query builders form for the `ngo_id` filter:
`` `%${filters.ngoId}%` ``. -/
def likePattern (f : String) : List Char :=
  '%' :: (f.toList ++ ['%'])

/-- The `filters` object handed to the dynamic query builders. -/
structure Filters where
  monthFrom : Option String
  monthTo : Option String
  ngoId : Option String
deriving Repr, DecidableEq

/-- The `WHERE` clause shared by `getFilteredDashboardStats` and
`getFilteredReports`: `month >= ?`, `month <= ?` and `ngo_id LIKE ?` for
whichever filters are set. -/
def matchesFilters (f : Filters) (r : ReportData) : Bool :=
  (match f.monthFrom with
   | none => true
   | some m => strLe m r.month) &&
  (match f.monthTo with
   | none => true
   | some m => strLe r.month m) &&
  (match f.ngoId with
   | none => true
   | some p => likeMatch (likePattern p) r.ngo_id.toList)

/-- `ORDER BY month DESC, ngo_id ASC` as a relation on records. -/
def reportOrder (a b : ReportData) : Prop :=
  charListCmp b.month.toList a.month.toList = Ordering.lt ∨
    (charListCmp a.month.toList b.month.toList = Ordering.eq ∧ strLe a.ngo_id b.ngo_id = true)

instance : DecidableRel reportOrder := fun a b => by
  unfold reportOrder
  infer_instance

/-- The object `getFilteredReports` returns. -/
structure PageResult where
  reports : List ReportData
  totalRecords : Nat
  hasMore : Bool
deriving Repr, DecidableEq

/-- `getFilteredReports(filters, offset, limit)`: count the matching
rows, then return the page `LIMIT limit OFFSET offset` of the sorted
matching rows, plus `hasMore := offset + reports.length < totalRecords`. -/
def getFilteredReports (store : Store) (f : Filters) (offset limit : Nat) : PageResult :=
  let filtered := store.filter (matchesFilters f)
  let totalRecords := filtered.length
  let sorted := List.insertionSort reportOrder filtered
  let reports := (sorted.drop offset).take limit
  { reports := reports
    totalRecords := totalRecords
    hasMore := decide (offset + reports.length < totalRecords) }

/-- The aggregate row of `getFilteredDashboardStats`. (SQL `SUM` over an
empty set is `NULL`; the route coalesces that to `0` with `|| 0`, which
is the value the model gives directly.) -/
structure DashboardStats where
  total_ngos : Nat
  total_people_helped : Int
  total_events_conducted : Int
  total_funds_utilized : Dec
deriving Repr, DecidableEq

/-- `getFilteredDashboardStats(filters)`: `COUNT(DISTINCT ngo_id)` and the
three sums over the rows matching the same `WHERE` clause. -/
def getFilteredDashboardStats (store : Store) (f : Filters) : DashboardStats :=
  let filtered := store.filter (matchesFilters f)
  { total_ngos := ((filtered.map (fun r => r.ngo_id)).dedup).length
    total_people_helped := (filtered.map (fun r => r.people_helped)).sum
    total_events_conducted := (filtered.map (fun r => r.events_conducted)).sum
    total_funds_utilized := (filtered.map (fun r => r.funds_utilized)).foldl Dec.add ⟨0, 1⟩ }

/-- The dashboard route's `offsetNum`:
`Math.max(0, parseInt(offset) || 0)` with `'0'` as the destructuring
default for an absent query parameter. -/
def parseOffsetParam (offset : Option String) : Int :=
  max 0 (jsOrInt (parseIntJS (offset.getD "0")) 0)

/-- The dashboard route's `limitNum`:
`Math.min(100, Math.max(1, parseInt(limit) || 20))` with `'20'` as the
destructuring default for an absent query parameter. -/
def parseLimitParam (limit : Option String) : Int :=
  min 100 (max 1 (jsOrInt (parseIntJS (limit.getD "20")) 20))

/-- The dashboard route's paginated read: parse the pagination query
parameters, then call `getFilteredReports`. -/
def dashboardPage (store : Store) (f : Filters) (offset limit : Option String) : PageResult :=
  getFilteredReports store f (parseOffsetParam offset).toNat (parseLimitParam limit).toNat

/-! ## Invariants of the row loop -/

theorem processRow_processed (dbErr : Nat → Option String) (acc : LoopAcc) (idx : Nat) (row : Row) :
    (processRow dbErr acc idx row).processed = acc.processed + 1 := by
  unfold processRow
  cases h : (validateRow row idx).isValid
  · simp [h]
  · cases hdb : dbErr idx <;> simp [h, hdb]

theorem processRow_sum (dbErr : Nat → Option String) (acc : LoopAcc) (idx : Nat) (row : Row) :
    (processRow dbErr acc idx row).successful + (processRow dbErr acc idx row).failed
      = acc.successful + acc.failed + 1 := by
  unfold processRow
  cases h : (validateRow row idx).isValid
  · simp [h]
    omega
  · cases hdb : dbErr idx <;> simp [h, hdb] <;> omega

theorem processRow_successful_le (dbErr : Nat → Option String) (acc : LoopAcc) (idx : Nat) (row : Row) :
    acc.successful ≤ (processRow dbErr acc idx row).successful := by
  unfold processRow
  cases h : (validateRow row idx).isValid
  · simp [h]
  · cases hdb : dbErr idx <;> simp [h, hdb]

theorem processRow_failed_le (dbErr : Nat → Option String) (acc : LoopAcc) (idx : Nat) (row : Row) :
    acc.failed ≤ (processRow dbErr acc idx row).failed := by
  unfold processRow
  cases h : (validateRow row idx).isValid
  · simp [h]
  · cases hdb : dbErr idx <;> simp [h, hdb]

theorem rowLoop_length (dbErr : Nat → Option String) (total : Nat) (rows : List Row) :
    ∀ idx acc, (rowLoop dbErr total rows idx acc).1.length = rows.length := by
  induction rows with
  | nil => intro idx acc; rfl
  | cons row rest ih =>
      intro idx acc
      simp [rowLoop, ih]

theorem rowLoop_acc_processed (dbErr : Nat → Option String) (total : Nat) (rows : List Row) :
    ∀ idx acc, (rowLoop dbErr total rows idx acc).2.processed = acc.processed + rows.length := by
  induction rows with
  | nil => intro idx acc; rfl
  | cons row rest ih =>
      intro idx acc
      simp [rowLoop, ih, processRow_processed]
      omega

theorem rowLoop_acc_sum (dbErr : Nat → Option String) (total : Nat) (rows : List Row) :
    ∀ idx acc,
      (rowLoop dbErr total rows idx acc).2.successful + (rowLoop dbErr total rows idx acc).2.failed
        = acc.successful + acc.failed + rows.length := by
  induction rows with
  | nil => intro idx acc; simp [rowLoop]
  | cons row rest ih =>
      intro idx acc
      simp only [rowLoop]
      rw [ih]
      rw [processRow_sum]
      simp
      omega

theorem rowLoop_states_invariant (dbErr : Nat → Option String) (total : Nat) (rows : List Row) :
    ∀ idx acc, acc.processed = acc.successful + acc.failed →
      acc.processed + rows.length ≤ total →
      ∀ s ∈ (rowLoop dbErr total rows idx acc).1,
        s.total_rows = total ∧
        s.processed_rows = s.successful_rows + s.failed_rows ∧
        s.processed_rows ≤ total := by
  induction rows with
  | nil => intro idx acc _ _ s hs; simp [rowLoop] at hs
  | cons row rest ih =>
      intro idx acc h1 h2 s hs
      simp only [rowLoop, List.mem_cons] at hs
      rcases hs with rfl | hs
      · have hp := processRow_processed dbErr acc idx row
        have hsum := processRow_sum dbErr acc idx row
        refine ⟨rfl, ?_, ?_⟩
        · simp only [snapState]
          omega
        · simp only [snapState]
          simp at h2
          omega
      · refine ih (idx + 1) (processRow dbErr acc idx row) ?_ ?_ s hs
        · have hp := processRow_processed dbErr acc idx row
          have hsum := processRow_sum dbErr acc idx row
          omega
        · have hp := processRow_processed dbErr acc idx row
          simp at h2
          omega

/-- The counter-monotonicity relation between two successive persisted
job states. -/
def countersMono (a b : JobState) : Prop :=
  a.processed_rows ≤ b.processed_rows ∧
    a.successful_rows ≤ b.successful_rows ∧
    a.failed_rows ≤ b.failed_rows

theorem rowLoop_chain (dbErr : Nat → Option String) (total : Nat) (rows : List Row) :
    ∀ idx acc,
      List.Chain' countersMono (snapState total acc :: (rowLoop dbErr total rows idx acc).1) := by
  induction rows with
  | nil => intro idx acc; simp [rowLoop]
  | cons row rest ih =>
      intro idx acc
      simp only [rowLoop]
      refine List.chain'_cons.mpr ⟨?_, ih (idx + 1) (processRow dbErr acc idx row)⟩
      refine ⟨?_, ?_, ?_⟩
      · show acc.processed ≤ (processRow dbErr acc idx row).processed
        rw [processRow_processed]
        omega
      · exact processRow_successful_le dbErr acc idx row
      · exact processRow_failed_le dbErr acc idx row

theorem rowLoop_getLast (dbErr : Nat → Option String) (total : Nat) (rows : List Row) :
    ∀ idx acc, rows ≠ [] →
      (rowLoop dbErr total rows idx acc).1.getLast?
        = some (snapState total (rowLoop dbErr total rows idx acc).2) := by
  induction rows with
  | nil => intro idx acc h; exact absurd rfl h
  | cons row rest ih =>
      intro idx acc _
      by_cases hr : rest = []
      · subst hr
        simp [rowLoop]
      · have htail := ih (idx + 1) (processRow dbErr acc idx row) hr
        have hlen : (rowLoop dbErr total rest (idx + 1) (processRow dbErr acc idx row)).1 ≠ [] := by
          intro hnil
          have hl := rowLoop_length dbErr total rest (idx + 1) (processRow dbErr acc idx row)
          rw [hnil] at hl
          exact hr (List.length_eq_zero.mp hl.symm)
        simp only [rowLoop]
        rcases hx : (rowLoop dbErr total rest (idx + 1) (processRow dbErr acc idx row)).1 with _ | ⟨b, l⟩
        · exact absurd hx hlen
        · rw [hx] at htail
          rw [List.getLast?_cons_cons]
          exact htail

/-! ## C1 and C2: counter invariants and the well-formed-upload outcome -/

/-- C1: for every job (any stream contents, any store, any
persistence-failure pattern), every persisted job state satisfies
`processed_rows = successful_rows + failed_rows` and
`processed_rows ≤ total_rows`, and the processed/successful/failed
counters are non-decreasing across the successive persisted states of
the job. -/
theorem C1_job_state_invariants (dbErr : Nat → Option String) (headers : List String)
    (values : List (List String)) (store : Store) :
    (∀ s ∈ jobTrace dbErr headers values store,
        s.processed_rows = s.successful_rows + s.failed_rows ∧
        s.processed_rows ≤ s.total_rows) ∧
    List.Chain' countersMono (jobTrace dbErr headers values store) := by
  unfold jobTrace processCSVFile
  cases hv : values.isEmpty
  · cases hh : validateHeaders headers with
    | some err =>
        simp [hv, hh, pendingJobState, failedJobState, countersMono]
    | none =>
        simp only [hv, Bool.false_eq_true, if_false, hh]
        have hne : values ≠ [] := by
          intro h
          subst h
          simp at hv
        have hlen : 0 < (values.map (fun v => headers.zip v)).length := by
          simp
          exact List.length_pos.mpr hne
        constructor
        · intro s hs
          simp only [List.mem_cons] at hs
          rcases hs with rfl | rfl | hs
          · exact ⟨rfl, Nat.le_refl 0⟩
          · exact ⟨rfl, Nat.zero_le _⟩
          · have hinv := rowLoop_states_invariant dbErr
              (values.map (fun v => headers.zip v)).length
              (values.map (fun v => headers.zip v)) 1
              { processed := 0, successful := 0, failed := 0, errors := [], store := store }
              rfl (by simp) s hs
            exact ⟨hinv.2.1, hinv.1 ▸ hinv.2.2⟩
        · refine List.chain'_cons.mpr ⟨?_, ?_⟩
          · exact ⟨Nat.zero_le _, Nat.zero_le _, Nat.zero_le _⟩
          · refine List.chain'_cons'.mpr ⟨?_, ?_⟩
            · intro y _
              exact ⟨Nat.zero_le _, Nat.zero_le _, Nat.zero_le _⟩
            · exact (rowLoop_chain dbErr
                (values.map (fun v => headers.zip v)).length
                (values.map (fun v => headers.zip v)) 1
                { processed := 0, successful := 0, failed := 0, errors := [], store := store }).tail
  · simp [hv, pendingJobState, failedJobState, countersMono]

/-- C2: a CSV upload whose header passes structural validation and whose
stream yields N ≥ 1 well-formed data rows terminates in status
`completed` with `total_rows = processed_rows = N` and
`successful_rows + failed_rows = N`. -/
theorem C2_well_formed_upload_completes (dbErr : Nat → Option String) (headers : List String)
    (values : List (List String)) (store : Store)
    (hne : values ≠ [])
    (hheaders : validateHeaders headers = none)
    (hvalid : ∀ v ∈ values, (validateRow (headers.zip v) 1).isValid = true) :
    ∃ final, (processCSVFile dbErr headers values store).states.getLast? = some final ∧
      final.status = "completed" ∧
      final.total_rows = values.length ∧
      final.processed_rows = values.length ∧
      final.successful_rows + final.failed_rows = values.length := by
  unfold processCSVFile
  have hv : values.isEmpty = false := by
    cases values with
    | nil => exact absurd rfl hne
    | cons a l => rfl
  simp only [hv, Bool.false_eq_true, if_false, hheaders]
  have hrows : values.map (fun v => headers.zip v) ≠ [] := by
    simp [hne]
  set rows := values.map (fun v => headers.zip v) with hrowsdef
  set acc0 : LoopAcc := { processed := 0, successful := 0, failed := 0, errors := [], store := store }
  have hlast := rowLoop_getLast dbErr rows.length rows 1 acc0 hrows
  have hproc := rowLoop_acc_processed dbErr rows.length rows 1 acc0
  have hsum := rowLoop_acc_sum dbErr rows.length rows 1 acc0
  have hlnonnil : (rowLoop dbErr rows.length rows 1 acc0).1 ≠ [] := by
    intro hnil
    have hl := rowLoop_length dbErr rows.length rows 1 acc0
    rw [hnil] at hl
    exact hrows (List.length_eq_zero.mp hl.symm)
  refine ⟨snapState rows.length (rowLoop dbErr rows.length rows 1 acc0).2, ?_, ?_, ?_, ?_, ?_⟩
  · rcases hx : (rowLoop dbErr rows.length rows 1 acc0).1 with _ | ⟨b, l⟩
    · exact absurd hx hlnonnil
    · simp only [List.getLast?_cons_cons]
      rw [← hx, hlast]
  · show (if (rowLoop dbErr rows.length rows 1 acc0).2.processed = rows.length then "completed" else "processing") = "completed"
    rw [hproc]
    simp
  · simp [snapState, hrowsdef]
  · show (rowLoop dbErr rows.length rows 1 acc0).2.processed = values.length
    rw [hproc]
    simp [hrowsdef]
  · show (rowLoop dbErr rows.length rows 1 acc0).2.successful + (rowLoop dbErr rows.length rows 1 acc0).2.failed = values.length
    rw [hsum]
    simp [hrowsdef]

/-! ## C3 and C6: the two fatal structural paths -/

/-- C3: a CSV upload with at least one record whose header misses
required columns ends as a single `failed` job write with `total_rows = 0`
and exactly one error message listing every missing (normalized) column,
comma-joined; the record store is untouched — no row is validated or
persisted — and the promise is rejected. -/
theorem C3_missing_columns_fail (dbErr : Nat → Option String) (headers : List String)
    (values : List (List String)) (store : Store) (err : String)
    (hne : values ≠ [])
    (hfail : validateHeaders headers = some err) :
    (processCSVFile dbErr headers values store).states = [failedJobState err] ∧
    (processCSVFile dbErr headers values store).store = store ∧
    (processCSVFile dbErr headers values store).outcome = Except.error err ∧
    err = "Missing required columns: " ++ String.intercalate ", "
      (REQUIRED_HEADERS.filter
        (fun required => !((headers.map (fun h => trimString (lowerString h))).contains required))) := by
  have hv : values.isEmpty = false := by
    cases values with
    | nil => exact absurd rfl hne
    | cons a l => rfl
  unfold processCSVFile
  simp only [hv, Bool.false_eq_true, if_false, hfail]
  refine ⟨trivial, trivial, trivial, ?_⟩
  unfold validateHeaders at hfail
  simp only [] at hfail
  split at hfail
  · exact (Option.some.inj hfail).symm
  · exact absurd hfail (by simp)

/-- Witness for C3 at a concrete upload: header `month, people_helped`
with one data row. -/
theorem C3_missing_columns_fail_witness :
    (processCSVFile (fun _ => none) ["month", "people_helped"] [["2024-01", "5"]] []).states
      = [failedJobState "Missing required columns: ngo_id, events_conducted, funds_utilized"] ∧
    (processCSVFile (fun _ => none) ["month", "people_helped"] [["2024-01", "5"]] []).store = [] :=
  let h := C3_missing_columns_fail (fun _ => none) ["month", "people_helped"] [["2024-01", "5"]] []
    "Missing required columns: ngo_id, events_conducted, funds_utilized"
    (by decide) (by decide)
  ⟨h.1, h.2.1⟩

/-- C6: a stream with zero data records — whatever the header line would
have contained, even one that would fail structural validation — ends as
a single `failed` write with `total_rows = 0` and the explanatory
empty-file message, leaves the store untouched, and *resolves* with a
zero summary (the header-validation path would instead have rejected
with a missing-columns message): the outcome is produced by the
end-of-stream check, which runs before any header is ever seen. -/
theorem C6_zero_rows_failed (dbErr : Nat → Option String) (headers : List String) (store : Store) :
    (processCSVFile dbErr headers [] store).states = [failedJobState emptyCsvMessage] ∧
    (processCSVFile dbErr headers [] store).store = store ∧
    (processCSVFile dbErr headers [] store).outcome =
      Except.ok { totalRows := 0, successfulRows := 0, failedRows := 0, errors := [emptyCsvMessage] } :=
  ⟨rfl, rfl, rfl⟩

/-! ## C5: the composite-key upsert is last-write-wins -/

/-- Number of stored rows whose key is `(ngoId, month)`. -/
def countKey (store : Store) (ngoId month : String) : Nat :=
  store.countP (fun r => keyMatches r ngoId month)

theorem keyMatches_update (r d : ReportData) (ngoId month : String) :
    keyMatches
      (if keyMatches r d.ngo_id d.month then
        { r with
            people_helped := d.people_helped
            events_conducted := d.events_conducted
            funds_utilized := d.funds_utilized }
      else r) ngoId month = keyMatches r ngoId month := by
  by_cases h : keyMatches r d.ngo_id d.month = true
  · rw [if_pos h]
    rfl
  · rw [if_neg h]

theorem insertOrUpdateReport_countKey (store : Store) (d : ReportData)
    (hinv : countKey store d.ngo_id d.month ≤ 1) :
    countKey (insertOrUpdateReport store d) d.ngo_id d.month = 1 := by
  unfold insertOrUpdateReport countKey
  by_cases h : store.any (fun r => keyMatches r d.ngo_id d.month) = true
  · simp only [h, if_true]
    have hmap : (store.map (fun r =>
        if keyMatches r d.ngo_id d.month then
          { r with
              people_helped := d.people_helped
              events_conducted := d.events_conducted
              funds_utilized := d.funds_utilized }
        else r)).countP (fun r => keyMatches r d.ngo_id d.month)
        = store.countP (fun r => keyMatches r d.ngo_id d.month) := by
      rw [List.countP_map]
      refine List.countP_congr ?_
      intro r _
      simp only [Function.comp]
      rw [keyMatches_update]
    rw [hmap]
    have hpos : 0 < store.countP (fun r => keyMatches r d.ngo_id d.month) := by
      rw [List.countP_pos_iff]
      rcases List.any_eq_true.mp h with ⟨r, hr, hkr⟩
      exact ⟨r, hr, hkr⟩
    unfold countKey at hinv
    omega
  · have hb : store.any (fun r => keyMatches r d.ngo_id d.month) = false := by
      rwa [Bool.not_eq_true] at h
    simp only [hb, Bool.false_eq_true, if_false, List.countP_append]
    have hzero : store.countP (fun r => keyMatches r d.ngo_id d.month) = 0 := by
      rw [List.countP_eq_zero]
      intro r hr hkr
      exact h (List.any_eq_true.mpr ⟨r, hr, hkr⟩)
    rw [hzero]
    simp [keyMatches]

theorem insertOrUpdateReport_values (store : Store) (d : ReportData) :
    ∀ r ∈ insertOrUpdateReport store d, keyMatches r d.ngo_id d.month = true →
      r.people_helped = d.people_helped ∧
      r.events_conducted = d.events_conducted ∧
      r.funds_utilized = d.funds_utilized := by
  unfold insertOrUpdateReport
  by_cases h : store.any (fun r => keyMatches r d.ngo_id d.month) = true
  · simp only [h, if_true]
    intro r hr hkr
    rcases List.mem_map.mp hr with ⟨x, hx, rfl⟩
    by_cases hkx : keyMatches x d.ngo_id d.month = true
    · simp [hkx]
    · rw [keyMatches_update] at hkr
      exact absurd hkr hkx
  · simp only [h, if_false]
    intro r hr hkr
    rcases List.mem_append.mp hr with hr | hr
    · exact absurd (List.any_eq_true.mpr ⟨r, hr, hkr⟩) h
    · rcases List.mem_singleton.mp hr with rfl
      exact ⟨rfl, rfl, rfl⟩

theorem foldl_upsert_last (ngoId month : String) (ds : List ReportData) :
    ∀ store : Store, countKey store ngoId month ≤ 1 →
      (∀ d ∈ ds, d.ngo_id = ngoId ∧ d.month = month) →
      ds ≠ [] →
      countKey (ds.foldl insertOrUpdateReport store) ngoId month = 1 ∧
      ∀ dlast, ds.getLast? = some dlast →
        ∀ r ∈ ds.foldl insertOrUpdateReport store, keyMatches r ngoId month = true →
          r.people_helped = dlast.people_helped ∧
          r.events_conducted = dlast.events_conducted ∧
          r.funds_utilized = dlast.funds_utilized := by
  induction ds with
  | nil => intro store _ _ hne; exact absurd rfl hne
  | cons d rest ih =>
      intro store hinv hkeys _
      obtain ⟨hdn, hdm⟩ := hkeys d (List.mem_cons_self d rest)
      have hinv1 : countKey (insertOrUpdateReport store d) ngoId month = 1 := by
        rw [← hdn, ← hdm] at hinv ⊢
        exact insertOrUpdateReport_countKey store d hinv
      cases rest with
      | nil =>
          simp only [List.foldl_cons, List.foldl_nil]
          refine ⟨hinv1, ?_⟩
          intro dlast hd r hr hkr
          cases Option.some.inj hd
          rw [← hdn, ← hdm] at hkr
          exact insertOrUpdateReport_values store d r hr hkr
      | cons d2 rest2 =>
          have hres := ih (insertOrUpdateReport store d) (Nat.le_of_eq hinv1)
            (fun x hx => hkeys x (List.mem_cons_of_mem d hx)) (by simp)
          simp only [List.foldl_cons] at hres ⊢
          refine ⟨hres.1, ?_⟩
          intro dlast hd
          rw [List.getLast?_cons_cons] at hd
          exact hres.2 dlast hd

/-- C5: starting from any store holding at most one row for the key, a
non-empty sequence of valid submissions for one `(entity_id, period)`
key — single submissions and bulk rows share this upsert — leaves
exactly one row for that key, and its numeric values are those of the
last submission of the sequence. -/
theorem C5_last_write_wins (store : Store) (ngoId month : String) (ds : List ReportData)
    (hinv : countKey store ngoId month ≤ 1)
    (hne : ds ≠ [])
    (hkeys : ∀ d ∈ ds, d.ngo_id = ngoId ∧ d.month = month) :
    countKey (ds.foldl insertOrUpdateReport store) ngoId month = 1 ∧
    ∀ dlast, ds.getLast? = some dlast →
      ∀ r ∈ ds.foldl insertOrUpdateReport store, keyMatches r ngoId month = true →
        r.people_helped = dlast.people_helped ∧
        r.events_conducted = dlast.events_conducted ∧
        r.funds_utilized = dlast.funds_utilized :=
  foldl_upsert_last ngoId month ds store hinv hkeys hne

/-- Witness for C5: the spec's concrete scenario — `NGO001 / 2024-01`
submitted with `(150, 5, 50000)` and then with `(200, 6, 60000)` into an
empty store. -/
theorem C5_last_write_wins_witness :
    countKey
      ([⟨"NGO001", "2024-01", 150, 5, ⟨50000, 1⟩⟩,
        ⟨"NGO001", "2024-01", 200, 6, ⟨60000, 1⟩⟩].foldl insertOrUpdateReport [])
      "NGO001" "2024-01" = 1 ∧
    ∀ dlast,
      ([⟨"NGO001", "2024-01", 150, 5, ⟨50000, 1⟩⟩,
        (⟨"NGO001", "2024-01", 200, 6, ⟨60000, 1⟩⟩ : ReportData)] : List ReportData).getLast?
        = some dlast →
      ∀ r ∈ [⟨"NGO001", "2024-01", 150, 5, ⟨50000, 1⟩⟩,
             (⟨"NGO001", "2024-01", 200, 6, ⟨60000, 1⟩⟩ : ReportData)].foldl insertOrUpdateReport [],
        keyMatches r "NGO001" "2024-01" = true →
        r.people_helped = dlast.people_helped ∧
        r.events_conducted = dlast.events_conducted ∧
        r.funds_utilized = dlast.funds_utilized :=
  C5_last_write_wins [] "NGO001" "2024-01"
    [⟨"NGO001", "2024-01", 150, 5, ⟨50000, 1⟩⟩, ⟨"NGO001", "2024-01", 200, 6, ⟨60000, 1⟩⟩]
    (by decide) (by decide) (by decide)

/-! ## C4 and C9: row isolation and the header-case mismatch -/

theorem validateRow_isValid_idx (row : Row) (i j : Nat) :
    (validateRow row i).isValid = (validateRow row j).isValid := by
  simp only [validateRow]
  cases parseIntJS (jsString (getField row "people_helped")) <;>
    cases parseIntJS (jsString (getField row "events_conducted")) <;>
      cases parseFloatJS (jsString (getField row "funds_utilized")) <;>
        dsimp only <;> split_ifs <;> rfl

/-- Row validity independently of the 1-based index the pipeline hands
the validator (the index only flavors the messages). -/
def rowIsValid (row : Row) : Bool :=
  (validateRow row 1).isValid

theorem processRow_counts (dbErr : Nat → Option String) (acc : LoopAcc) (idx : Nat) (row : Row)
    (hdb : dbErr idx = none) :
    (rowIsValid row = true →
      (processRow dbErr acc idx row).successful = acc.successful + 1 ∧
      (processRow dbErr acc idx row).failed = acc.failed ∧
      (processRow dbErr acc idx row).store
        = insertOrUpdateReport acc.store (validateRow row idx).data) ∧
    (rowIsValid row = false →
      (processRow dbErr acc idx row).successful = acc.successful ∧
      (processRow dbErr acc idx row).failed = acc.failed + 1 ∧
      (processRow dbErr acc idx row).store = acc.store) := by
  have hv : (validateRow row idx).isValid = rowIsValid row := validateRow_isValid_idx row idx 1
  unfold processRow
  constructor
  · intro h
    have hvv : (validateRow row idx).isValid = true := hv.trans h
    simp [hvv, hdb]
  · intro h
    have hvv : (validateRow row idx).isValid = false := hv.trans h
    simp [hvv]

theorem rowLoop_successful_counts (dbErr : Nat → Option String) (total : Nat) (rows : List Row)
    (hdb : ∀ i, dbErr i = none) :
    ∀ idx acc,
      (rowLoop dbErr total rows idx acc).2.successful
        = acc.successful + rows.countP rowIsValid ∧
      (rowLoop dbErr total rows idx acc).2.failed
        = acc.failed + rows.countP (fun r => !(rowIsValid r)) := by
  induction rows with
  | nil => intro idx acc; simp [rowLoop]
  | cons row rest ih =>
      intro idx acc
      have hc := processRow_counts dbErr acc idx row (hdb idx)
      have hrec := ih (idx + 1) (processRow dbErr acc idx row)
      simp only [rowLoop]
      cases h : rowIsValid row
      · obtain ⟨hs, hf, -⟩ := hc.2 h
        refine ⟨?_, ?_⟩
        · rw [hrec.1, hs, List.countP_cons]
          simp [h]
        · rw [hrec.2, hf, List.countP_cons]
          simp [h]
          omega
      · obtain ⟨hs, hf, -⟩ := hc.1 h
        refine ⟨?_, ?_⟩
        · rw [hrec.1, hs, List.countP_cons]
          simp [h]
          omega
        · rw [hrec.2, hf, List.countP_cons]
          simp [h]

/-- Whether some stored row has the key `(ngoId, month)`. -/
def hasKey (store : Store) (ngoId month : String) : Bool :=
  store.any (fun r => keyMatches r ngoId month)

theorem insertOrUpdateReport_hasKey_self (store : Store) (d : ReportData) :
    hasKey (insertOrUpdateReport store d) d.ngo_id d.month = true := by
  unfold insertOrUpdateReport hasKey
  by_cases h : store.any (fun r => keyMatches r d.ngo_id d.month) = true
  · simp only [h, if_true]
    rcases List.any_eq_true.mp h with ⟨r, hr, hkr⟩
    refine List.any_eq_true.mpr ⟨_, List.mem_map_of_mem _ hr, ?_⟩
    rw [keyMatches_update]
    exact hkr
  · have hb : store.any (fun r => keyMatches r d.ngo_id d.month) = false := by
      rwa [Bool.not_eq_true] at h
    simp only [hb, Bool.false_eq_true, if_false]
    exact List.any_eq_true.mpr ⟨d, by simp, by simp [keyMatches]⟩

theorem insertOrUpdateReport_hasKey_mono (store : Store) (d : ReportData) (ngoId month : String)
    (h : hasKey store ngoId month = true) :
    hasKey (insertOrUpdateReport store d) ngoId month = true := by
  unfold insertOrUpdateReport hasKey
  unfold hasKey at h
  by_cases hc : store.any (fun r => keyMatches r d.ngo_id d.month) = true
  · simp only [hc, if_true]
    rcases List.any_eq_true.mp h with ⟨r, hr, hkr⟩
    refine List.any_eq_true.mpr ⟨_, List.mem_map_of_mem _ hr, ?_⟩
    rw [keyMatches_update]
    exact hkr
  · have hb : store.any (fun r => keyMatches r d.ngo_id d.month) = false := by
      rwa [Bool.not_eq_true] at hc
    simp only [hb, Bool.false_eq_true, if_false]
    rcases List.any_eq_true.mp h with ⟨r, hr, hkr⟩
    exact List.any_eq_true.mpr ⟨r, List.mem_append_left _ hr, hkr⟩

theorem processRow_hasKey_mono (dbErr : Nat → Option String) (acc : LoopAcc) (idx : Nat)
    (row : Row) (ngoId month : String)
    (h : hasKey acc.store ngoId month = true) :
    hasKey (processRow dbErr acc idx row).store ngoId month = true := by
  unfold processRow
  cases hv : (validateRow row idx).isValid
  · simpa [hv] using h
  · cases hdb : dbErr idx
    · simp only [hv, hdb, if_true]
      exact insertOrUpdateReport_hasKey_mono acc.store _ ngoId month h
    · simpa [hv, hdb] using h

theorem rowLoop_hasKey_mono (dbErr : Nat → Option String) (total : Nat) (rows : List Row) :
    ∀ idx acc ngoId month, hasKey acc.store ngoId month = true →
      hasKey (rowLoop dbErr total rows idx acc).2.store ngoId month = true := by
  induction rows with
  | nil => intro idx acc ngoId month h; exact h
  | cons row rest ih =>
      intro idx acc ngoId month h
      simp only [rowLoop]
      exact ih (idx + 1) _ ngoId month (processRow_hasKey_mono dbErr acc idx row ngoId month h)

/-- The `(entity, period)` key the validators derive from a raw row. -/
def rowKey (row : Row) : String × String :=
  (trimString (jsString (getField row "ngo_id")), trimString (jsString (getField row "month")))

theorem rowLoop_persists_valid (dbErr : Nat → Option String) (total : Nat) (rows : List Row)
    (hdb : ∀ i, dbErr i = none) :
    ∀ idx acc, ∀ row ∈ rows, rowIsValid row = true →
      hasKey (rowLoop dbErr total rows idx acc).2.store (rowKey row).1 (rowKey row).2 = true := by
  induction rows with
  | nil => intro idx acc row hrow; simp at hrow
  | cons row0 rest ih =>
      intro idx acc row hrow hvalid
      simp only [List.mem_cons] at hrow
      simp only [rowLoop]
      rcases hrow with rfl | hrow
      · refine rowLoop_hasKey_mono dbErr total rest (idx + 1) _ _ _ ?_
        have hc := (processRow_counts dbErr acc idx row (hdb idx)).1 hvalid
        rw [hc.2.2]
        have hk : (validateRow row idx).data.ngo_id = (rowKey row).1 := rfl
        have hm : (validateRow row idx).data.month = (rowKey row).2 := rfl
        rw [← hk, ← hm]
        exact insertOrUpdateReport_hasKey_self acc.store (validateRow row idx).data
      · exact ih (idx + 1) _ row hrow hvalid

theorem processRow_invalid (dbErr : Nat → Option String) (acc : LoopAcc) (idx : Nat) (row : Row)
    (h : rowIsValid row = false) :
    (processRow dbErr acc idx row).successful = acc.successful ∧
    (processRow dbErr acc idx row).failed = acc.failed + 1 ∧
    (processRow dbErr acc idx row).store = acc.store := by
  have hvv : (validateRow row idx).isValid = false := (validateRow_isValid_idx row idx 1).trans h
  unfold processRow
  simp [hvv]

theorem rowLoop_all_invalid (dbErr : Nat → Option String) (total : Nat) (rows : List Row)
    (hall : ∀ row ∈ rows, rowIsValid row = false) :
    ∀ idx acc,
      (rowLoop dbErr total rows idx acc).2.successful = acc.successful ∧
      (rowLoop dbErr total rows idx acc).2.failed = acc.failed + rows.length := by
  induction rows with
  | nil => intro idx acc; simp [rowLoop]
  | cons row rest ih =>
      intro idx acc
      have hrow := hall row (List.mem_cons_self row rest)
      obtain ⟨hs, hf, -⟩ := processRow_invalid dbErr acc idx row hrow
      have hrec := ih (fun r hr => hall r (List.mem_cons_of_mem row hr)) (idx + 1)
        (processRow dbErr acc idx row)
      simp only [rowLoop]
      rw [hrec.1, hrec.2, hs, hf]
      simp
      omega

/-- The normal (header-valid, non-empty) run of the pipeline, spelled
out. -/
theorem processCSVFile_eq_run (dbErr : Nat → Option String) (headers : List String)
    (values : List (List String)) (store : Store)
    (hne : values ≠ [])
    (hheaders : validateHeaders headers = none) :
    processCSVFile dbErr headers values store =
      { states :=
          { total_rows := (values.map (fun v => headers.zip v)).length
            processed_rows := 0
            successful_rows := 0
            failed_rows := 0
            errors := []
            status := "processing" } ::
          (rowLoop dbErr (values.map (fun v => headers.zip v)).length
            (values.map (fun v => headers.zip v)) 1
            { processed := 0, successful := 0, failed := 0, errors := [], store := store }).1
        store :=
          (rowLoop dbErr (values.map (fun v => headers.zip v)).length
            (values.map (fun v => headers.zip v)) 1
            { processed := 0, successful := 0, failed := 0, errors := [], store := store }).2.store
        outcome := Except.ok
          { totalRows := (values.map (fun v => headers.zip v)).length
            successfulRows :=
              (rowLoop dbErr (values.map (fun v => headers.zip v)).length
                (values.map (fun v => headers.zip v)) 1
                { processed := 0, successful := 0, failed := 0, errors := [], store := store }).2.successful
            failedRows :=
              (rowLoop dbErr (values.map (fun v => headers.zip v)).length
                (values.map (fun v => headers.zip v)) 1
                { processed := 0, successful := 0, failed := 0, errors := [], store := store }).2.failed
            errors :=
              (rowLoop dbErr (values.map (fun v => headers.zip v)).length
                (values.map (fun v => headers.zip v)) 1
                { processed := 0, successful := 0, failed := 0, errors := [], store := store }).2.errors } } := by
  have hv : values.isEmpty = false := by
    cases values with
    | nil => exact absurd rfl hne
    | cons a l => rfl
  unfold processCSVFile
  simp only [hv, Bool.false_eq_true, if_false, hheaders]

theorem processCSVFile_states_getLast (dbErr : Nat → Option String) (headers : List String)
    (values : List (List String)) (store : Store)
    (hne : values ≠ [])
    (hheaders : validateHeaders headers = none) :
    (processCSVFile dbErr headers values store).states.getLast?
      = some (snapState (values.map (fun v => headers.zip v)).length
          (rowLoop dbErr (values.map (fun v => headers.zip v)).length
            (values.map (fun v => headers.zip v)) 1
            { processed := 0, successful := 0, failed := 0, errors := [], store := store }).2) := by
  rw [processCSVFile_eq_run dbErr headers values store hne hheaders]
  have hrows : values.map (fun v => headers.zip v) ≠ [] := by simp [hne]
  have hlast := rowLoop_getLast dbErr (values.map (fun v => headers.zip v)).length
    (values.map (fun v => headers.zip v)) 1
    { processed := 0, successful := 0, failed := 0, errors := [], store := store } hrows
  have hlnonnil : (rowLoop dbErr (values.map (fun v => headers.zip v)).length
      (values.map (fun v => headers.zip v)) 1
      { processed := 0, successful := 0, failed := 0, errors := [], store := store }).1 ≠ [] := by
    intro hnil
    have hl := rowLoop_length dbErr (values.map (fun v => headers.zip v)).length
      (values.map (fun v => headers.zip v)) 1
      { processed := 0, successful := 0, failed := 0, errors := [], store := store }
    rw [hnil] at hl
    exact hrows (List.length_eq_zero.mp hl.symm)
  rcases hx : (rowLoop dbErr (values.map (fun v => headers.zip v)).length
      (values.map (fun v => headers.zip v)) 1
      { processed := 0, successful := 0, failed := 0, errors := [], store := store }).1 with _ | ⟨b, l⟩
  · exact absurd hx hlnonnil
  · show (_ :: b :: l).getLast? = _
    rw [List.getLast?_cons_cons, ← hx, hlast]

/-- C4: a CSV whose stream yields one malformed row among N rows — at any
position — with every other row well-formed and no persistence errors:
the job ends `completed` with `failed_rows = 1` and
`successful_rows = N - 1`, and every valid row's `(entity, period)` key
is present in the record store afterward. -/
theorem C4_row_isolation (headers : List String) (store : Store)
    (va : List (List String)) (vbad : List String) (vb : List (List String))
    (hheaders : validateHeaders headers = none)
    (hvalid : ∀ v ∈ va ++ vb, rowIsValid (headers.zip v) = true)
    (hbad : rowIsValid (headers.zip vbad) = false) :
    (∃ final,
      (processCSVFile (fun _ => none) headers (va ++ [vbad] ++ vb) store).states.getLast?
        = some final ∧
      final.status = "completed" ∧
      final.failed_rows = 1 ∧
      final.successful_rows = (va ++ [vbad] ++ vb).length - 1) ∧
    ∀ v ∈ va ++ vb,
      hasKey (processCSVFile (fun _ => none) headers (va ++ [vbad] ++ vb) store).store
        (rowKey (headers.zip v)).1 (rowKey (headers.zip v)).2 = true := by
  have hne : va ++ [vbad] ++ vb ≠ [] := by simp
  have hdb : ∀ i : Nat, (fun _ : Nat => (none : Option String)) i = none := fun _ => rfl
  have hvalidA : ∀ r ∈ va.map (fun v => headers.zip v), rowIsValid r = true := by
    intro r hr
    rcases List.mem_map.mp hr with ⟨v, hv, rfl⟩
    exact hvalid v (List.mem_append_left _ hv)
  have hvalidB : ∀ r ∈ vb.map (fun v => headers.zip v), rowIsValid r = true := by
    intro r hr
    rcases List.mem_map.mp hr with ⟨v, hv, rfl⟩
    exact hvalid v (List.mem_append_right _ hv)
  have hsplit : (va ++ [vbad] ++ vb).map (fun v => headers.zip v)
      = va.map (fun v => headers.zip v) ++ [headers.zip vbad] ++ vb.map (fun v => headers.zip v) := by
    simp
  have hcntValid : ((va ++ [vbad] ++ vb).map (fun v => headers.zip v)).countP rowIsValid
      = va.length + vb.length := by
    rw [hsplit, List.countP_append, List.countP_append]
    rw [List.countP_eq_length.mpr hvalidA, List.countP_eq_length.mpr hvalidB]
    simp [hbad]
  have hcntInvalid : ((va ++ [vbad] ++ vb).map (fun v => headers.zip v)).countP
      (fun r => !(rowIsValid r)) = 1 := by
    rw [hsplit, List.countP_append, List.countP_append]
    have hza : (va.map (fun v => headers.zip v)).countP (fun r => !(rowIsValid r)) = 0 := by
      rw [List.countP_eq_zero]
      intro r hr
      simp [hvalidA r hr]
    have hzb : (vb.map (fun v => headers.zip v)).countP (fun r => !(rowIsValid r)) = 0 := by
      rw [List.countP_eq_zero]
      intro r hr
      simp [hvalidB r hr]
    rw [hza, hzb]
    simp [hbad]
  have hcounts := rowLoop_successful_counts (fun _ => none)
    ((va ++ [vbad] ++ vb).map (fun v => headers.zip v)).length
    ((va ++ [vbad] ++ vb).map (fun v => headers.zip v)) hdb 1
    { processed := 0, successful := 0, failed := 0, errors := [], store := store }
  have hproc := rowLoop_acc_processed (fun _ => none)
    ((va ++ [vbad] ++ vb).map (fun v => headers.zip v)).length
    ((va ++ [vbad] ++ vb).map (fun v => headers.zip v)) 1
    { processed := 0, successful := 0, failed := 0, errors := [], store := store }
  constructor
  · refine ⟨_, processCSVFile_states_getLast (fun _ => none) headers (va ++ [vbad] ++ vb) store
      hne hheaders, ?_, ?_, ?_⟩
    · show (if _ = _ then "completed" else "processing") = "completed"
      rw [hproc]
      simp
    · show (rowLoop _ _ _ _ _).2.failed = 1
      rw [hcounts.2, hcntInvalid]
    · show (rowLoop _ _ _ _ _).2.successful = _
      rw [hcounts.1, hcntValid]
      simp
  · intro v hv
    rw [processCSVFile_eq_run (fun _ => none) headers (va ++ [vbad] ++ vb) store hne hheaders]
    refine rowLoop_persists_valid (fun _ => none)
      ((va ++ [vbad] ++ vb).map (fun v => headers.zip v)).length
      ((va ++ [vbad] ++ vb).map (fun v => headers.zip v)) hdb 1
      { processed := 0, successful := 0, failed := 0, errors := [], store := store }
      (headers.zip v) ?_ (hvalid v hv)
    refine List.mem_map_of_mem _ ?_
    rcases List.mem_append.mp hv with hv | hv
    · exact List.mem_append_left _ (List.mem_append_left _ hv)
    · exact List.mem_append_right _ hv

/-- Witness for C4: the malformed row (empty `ngo_id`) sits between two
valid rows; the job completes with one failed and two successful rows and
both valid keys stored. -/
theorem C4_row_isolation_witness :
    (∃ final,
      (processCSVFile (fun _ => none)
        ["ngo_id", "month", "people_helped", "events_conducted", "funds_utilized"]
        ([["NGO001", "2024-01", "150", "5", "50000"]] ++ [["", "2024-01", "1", "2", "3"]]
          ++ [["NGO002", "2024-01", "10", "2", "3.5"]]) []).states.getLast?
        = some final ∧
      final.status = "completed" ∧
      final.failed_rows = 1 ∧
      final.successful_rows =
        ([["NGO001", "2024-01", "150", "5", "50000"]] ++ [["", "2024-01", "1", "2", "3"]]
          ++ [["NGO002", "2024-01", "10", "2", "3.5"]]).length - 1) ∧
    ∀ v ∈ [["NGO001", "2024-01", "150", "5", "50000"]] ++ [["NGO002", "2024-01", "10", "2", "3.5"]],
      hasKey
        (processCSVFile (fun _ => none)
          ["ngo_id", "month", "people_helped", "events_conducted", "funds_utilized"]
          ([["NGO001", "2024-01", "150", "5", "50000"]] ++ [["", "2024-01", "1", "2", "3"]]
            ++ [["NGO002", "2024-01", "10", "2", "3.5"]]) []).store
        (rowKey (["ngo_id", "month", "people_helped", "events_conducted", "funds_utilized"].zip v)).1
        (rowKey (["ngo_id", "month", "people_helped", "events_conducted", "funds_utilized"].zip v)).2
        = true :=
  C4_row_isolation ["ngo_id", "month", "people_helped", "events_conducted", "funds_utilized"] []
    [["NGO001", "2024-01", "150", "5", "50000"]] ["", "2024-01", "1", "2", "3"]
    [["NGO002", "2024-01", "10", "2", "3.5"]]
    (by decide) (by decide) (by decide)

theorem getField_zip_not_mem (headers : List String) (v : List String) (r : String)
    (h : r ∉ headers) : getField (headers.zip v) r = none := by
  unfold getField
  rw [List.find?_eq_none.mpr]
  · rfl
  · intro x hx
    have hx1 : x.1 ∈ headers := (List.of_mem_zip hx).1
    intro hbeq
    exact h (by rwa [show x.1 = r from by simpa using hbeq] at hx1)

theorem validateRow_missing_required (row : Row) (r : String)
    (hr : r ∈ REQUIRED_HEADERS) (hmiss : getField row r = none) :
    rowIsValid row = false := by
  have hpi : parseIntJS "undefined" = none := by decide
  have hpf : parseFloatJS "undefined" = none := by decide
  simp only [REQUIRED_HEADERS, List.mem_cons, List.not_mem_nil, or_false] at hr
  rcases hr with rfl | rfl | rfl | rfl | rfl <;>
    simp [rowIsValid, validateRow, hmiss, jsFalsy, jsString, hpi, hpf, List.isEmpty_iff]

/-- C9: when the header line passes case-folding validation but at least
one required column name appears only as a case or whitespace variant
(its exact lowercase form is absent from the row objects' keys), every
data row fails validation — the row validator reads the exact keys — so
the job still completes, with `successful_rows = 0` and
`failed_rows = N`. -/
theorem C9_header_variant_rows_fail (dbErr : Nat → Option String) (headers : List String)
    (values : List (List String)) (store : Store) (r : String)
    (hne : values ≠ [])
    (hpass : validateHeaders headers = none)
    (hr : r ∈ REQUIRED_HEADERS)
    (hmiss : r ∉ headers) :
    (∀ v ∈ values, rowIsValid (headers.zip v) = false) ∧
    ∃ final, (processCSVFile dbErr headers values store).states.getLast? = some final ∧
      final.status = "completed" ∧
      final.successful_rows = 0 ∧
      final.failed_rows = values.length ∧
      final.total_rows = values.length := by
  have hall : ∀ v ∈ values, rowIsValid (headers.zip v) = false := by
    intro v _
    exact validateRow_missing_required (headers.zip v) r hr (getField_zip_not_mem headers v r hmiss)
  have hallrows : ∀ row ∈ values.map (fun v => headers.zip v), rowIsValid row = false := by
    intro row hrow
    rcases List.mem_map.mp hrow with ⟨v, hv, rfl⟩
    exact hall v hv
  have hcounts := rowLoop_all_invalid dbErr (values.map (fun v => headers.zip v)).length
    (values.map (fun v => headers.zip v)) hallrows 1
    { processed := 0, successful := 0, failed := 0, errors := [], store := store }
  have hproc := rowLoop_acc_processed dbErr (values.map (fun v => headers.zip v)).length
    (values.map (fun v => headers.zip v)) 1
    { processed := 0, successful := 0, failed := 0, errors := [], store := store }
  refine ⟨hall, _, processCSVFile_states_getLast dbErr headers values store hne hpass, ?_, ?_, ?_, ?_⟩
  · show (if _ = _ then "completed" else "processing") = "completed"
    rw [hproc]
    simp
  · exact hcounts.1
  · show (rowLoop _ _ _ _ _).2.failed = values.length
    rw [hcounts.2]
    simp
  · show (values.map (fun v => headers.zip v)).length = values.length
    simp

/-- Witness for C9: header `NGO_ID` (uppercase variant) passes validation,
yet the single otherwise-well-formed data row fails and is not counted
successful. -/
theorem C9_header_variant_rows_fail_witness :
    (∀ v ∈ [["NGO001", "2024-01", "150", "5", "50000"]],
      rowIsValid (["NGO_ID", "month", "people_helped", "events_conducted", "funds_utilized"].zip v)
        = false) ∧
    ∃ final,
      (processCSVFile (fun _ => none)
        ["NGO_ID", "month", "people_helped", "events_conducted", "funds_utilized"]
        [["NGO001", "2024-01", "150", "5", "50000"]] []).states.getLast? = some final ∧
      final.status = "completed" ∧
      final.successful_rows = 0 ∧
      final.failed_rows = [["NGO001", "2024-01", "150", "5", "50000"]].length ∧
      final.total_rows = [["NGO001", "2024-01", "150", "5", "50000"]].length :=
  C9_header_variant_rows_fail (fun _ => none)
    ["NGO_ID", "month", "people_helped", "events_conducted", "funds_utilized"]
    [["NGO001", "2024-01", "150", "5", "50000"]] [] "ngo_id"
    (by decide) (by decide) (by decide) (by decide)

/-! ## C10: leading-prefix numeric parsing is accepted and normalized -/

/-- C10: `parseInt` keeps the integer prefix of `"5.7"` and `"12abc"`
(5 and 12), `parseFloat` keeps the decimal prefix of `"3.5xyz"` (3.5),
and a row carrying those values is accepted — no error recorded — with
the prefix values as the normalized fields, identically in the bulk row
validator and in the single-record validator. -/
theorem C10_prefix_parsing_accepted :
    parseIntJS "5.7" = some 5 ∧
    parseIntJS "12abc" = some 12 ∧
    parseFloatJS "3.5xyz" = some ⟨7, 2⟩ ∧
    (validateRow [("ngo_id", "NGO001"), ("month", "2024-01"), ("people_helped", "5.7"),
        ("events_conducted", "12abc"), ("funds_utilized", "3.5xyz")] 1).isValid = true ∧
    (validateRow [("ngo_id", "NGO001"), ("month", "2024-01"), ("people_helped", "5.7"),
        ("events_conducted", "12abc"), ("funds_utilized", "3.5xyz")] 1).errors = [] ∧
    (validateRow [("ngo_id", "NGO001"), ("month", "2024-01"), ("people_helped", "5.7"),
        ("events_conducted", "12abc"), ("funds_utilized", "3.5xyz")] 1).data
      = ⟨"NGO001", "2024-01", 5, 12, ⟨7, 2⟩⟩ ∧
    (validateReport [("ngo_id", "NGO001"), ("month", "2024-01"), ("people_helped", "5.7"),
        ("events_conducted", "12abc"), ("funds_utilized", "3.5xyz")]).isValid = true ∧
    (validateReport [("ngo_id", "NGO001"), ("month", "2024-01"), ("people_helped", "5.7"),
        ("events_conducted", "12abc"), ("funds_utilized", "3.5xyz")]).data
      = ⟨"NGO001", "2024-01", 5, 12, ⟨7, 2⟩⟩ := by
  decide

/-! ## C7: pagination parsing and the hasMore flag -/

/-- C7 counterexample: for the given limit `0`, the claim's
"limit clamped into `[1, 100]`" predicts an effective limit of `1`, but
the route computes `parseInt('0') || 20 = 20` — the zero limit falls
back to the default instead of being clamped. -/
theorem C7_counterexample_limit_zero :
    parseIntJS "0" = some 0 ∧
    parseLimitParam (some "0") = 20 ∧
    min 100 (max 1 (0 : Int)) = 1 ∧
    parseLimitParam (some "0") ≠ min 100 (max 1 (0 : Int)) := by
  decide

/-- C7 (amended): the effective offset of a dashboard query is
`max 0 n` for a numeric offset `n` (and `0` when absent or unparseable);
the effective limit is `min 100 (max 1 n)` for a numeric limit `n ≠ 0`,
while an absent, unparseable, or zero limit falls back to the default
`20`; the returned page has `min limit (matching - offset)` records and
`hasMore` is `true` exactly when `offset + returned_count < total_count`
of the records matching the filters. -/
theorem C7_pagination (store : Store) (f : Filters) (offset limit : Option String) :
    (offset = none → parseOffsetParam offset = 0) ∧
    (limit = none → parseLimitParam limit = 20) ∧
    (∀ n : Int, parseIntJS (offset.getD "0") = some n → parseOffsetParam offset = max 0 n) ∧
    (parseIntJS (offset.getD "0") = none → parseOffsetParam offset = 0) ∧
    (∀ n : Int, parseIntJS (limit.getD "20") = some n → n ≠ 0 →
      parseLimitParam limit = min 100 (max 1 n)) ∧
    (parseIntJS (limit.getD "20") = none → parseLimitParam limit = 20) ∧
    (parseIntJS (limit.getD "20") = some 0 → parseLimitParam limit = 20) ∧
    (dashboardPage store f offset limit).totalRecords = (store.filter (matchesFilters f)).length ∧
    (dashboardPage store f offset limit).reports.length
      = min (parseLimitParam limit).toNat
          ((store.filter (matchesFilters f)).length - (parseOffsetParam offset).toNat) ∧
    ((dashboardPage store f offset limit).hasMore = true ↔
      (parseOffsetParam offset).toNat + (dashboardPage store f offset limit).reports.length
        < (dashboardPage store f offset limit).totalRecords) := by
  refine ⟨?_, ?_, ?_, ?_, ?_, ?_, ?_, ?_, ?_, ?_⟩
  · rintro rfl
    decide
  · rintro rfl
    decide
  · intro n hn
    unfold parseOffsetParam
    rw [hn]
    unfold jsOrInt
    by_cases h : n = 0
    · subst h
      simp
    · simp [h]
  · intro hn
    unfold parseOffsetParam
    rw [hn]
    rfl
  · intro n hn hn0
    unfold parseLimitParam
    rw [hn]
    unfold jsOrInt
    simp [hn0]
  · intro hn
    unfold parseLimitParam
    rw [hn]
    rfl
  · intro hn
    unfold parseLimitParam
    rw [hn]
    unfold jsOrInt
    simp
  · rfl
  · show (((List.insertionSort reportOrder (store.filter (matchesFilters f))).drop
        (parseOffsetParam offset).toNat).take (parseLimitParam limit).toNat).length = _
    rw [List.length_take, List.length_drop, List.length_insertionSort]
  · unfold dashboardPage getFilteredReports
    simp only [decide_eq_true_eq]

/-- Witness for C7: a negative offset parses and clamps to `0`, a limit
of `7` clamps to itself, an unparseable offset (`abc`) gives `0`, a limit
parsing to zero (`00`) gives the default `20`, and `hasMore` on an empty
store matches the counting equivalence. -/
theorem C7_pagination_witness :
    parseOffsetParam (some "-5") = max 0 (-5 : Int) ∧
    parseLimitParam (some "7") = min 100 (max 1 (7 : Int)) ∧
    parseOffsetParam (some "abc") = 0 ∧
    parseLimitParam (some "00") = 20 ∧
    ((dashboardPage [] ⟨none, none, none⟩ (some "-5") (some "7")).hasMore = true ↔
      (parseOffsetParam (some "-5")).toNat
        + (dashboardPage [] ⟨none, none, none⟩ (some "-5") (some "7")).reports.length
        < (dashboardPage [] ⟨none, none, none⟩ (some "-5") (some "7")).totalRecords) := by
  have h := C7_pagination [] ⟨none, none, none⟩ (some "-5") (some "7")
  have h2 := C7_pagination [] ⟨none, none, none⟩ (some "abc") (some "00")
  obtain ⟨-, -, hoff, -, hlim, -, -, -, -, hmore⟩ := h
  obtain ⟨-, -, -, hoffbad, -, -, hlimzero, -, -, -⟩ := h2
  exact ⟨hoff (-5) (by decide), hlim 7 (by decide) (by decide),
    hoffbad (by decide), hlimzero (by decide), hmore⟩

/-! ## C8: the entity filter's matching semantics -/

theorem likeMatch_nil_pattern (cs : List Char) : likeMatch [] cs = cs.isEmpty := by
  simp [likeMatch]

theorem likeMatch_percent_nil (ps : List Char) :
    likeMatch ('%' :: ps) [] = likeMatch ps [] := by
  simp [likeMatch]

theorem likeMatch_percent_cons (ps cs : List Char) (c : Char) :
    likeMatch ('%' :: ps) (c :: cs)
      = (likeMatch ps (c :: cs) || likeMatch ('%' :: ps) cs) := by
  simp [likeMatch]

theorem likeMatch_lit_nil (p : Char) (ps : List Char) (hp : p ≠ '%') :
    likeMatch (p :: ps) [] = false := by
  simp [likeMatch, hp]

theorem likeMatch_lit_cons (p : Char) (ps cs : List Char) (c : Char)
    (hp : p ≠ '%') (hp2 : p ≠ '_') :
    likeMatch (p :: ps) (c :: cs)
      = ((lowerAscii p == lowerAscii c) && likeMatch ps cs) := by
  simp [likeMatch, hp, hp2]

theorem likeMatch_percent_all (cs : List Char) : likeMatch ['%'] cs = true := by
  induction cs with
  | nil => rw [likeMatch_percent_nil, likeMatch_nil_pattern]; rfl
  | cons c cs ih =>
      rw [likeMatch_percent_cons, ih]
      simp

theorem likeMatch_percent_iff (ps : List Char) :
    ∀ cs, likeMatch ('%' :: ps) cs = true ↔ ∃ t, t <:+ cs ∧ likeMatch ps t = true := by
  intro cs
  induction cs with
  | nil =>
      rw [likeMatch_percent_nil]
      constructor
      · intro h
        exact ⟨[], List.suffix_refl [], h⟩
      · rintro ⟨t, ht, hm⟩
        rw [List.suffix_nil.mp ht] at hm
        exact hm
  | cons c cs ih =>
      rw [likeMatch_percent_cons]
      constructor
      · intro h
        rcases Bool.or_eq_true_iff.mp h with h | h
        · exact ⟨c :: cs, List.suffix_refl _, h⟩
        · rcases ih.mp h with ⟨t, ht, hm⟩
          exact ⟨t, ht.trans (List.suffix_cons c cs), hm⟩
      · rintro ⟨t, ht, hm⟩
        rcases List.suffix_cons_iff.mp ht with rfl | ht
        · exact Bool.or_eq_true_iff.mpr (Or.inl hm)
        · exact Bool.or_eq_true_iff.mpr (Or.inr (ih.mpr ⟨t, ht, hm⟩))

theorem likeMatch_lit_percent_iff (f : List Char)
    (hf : ∀ c ∈ f, c ≠ '%' ∧ c ≠ '_') :
    ∀ cs, likeMatch (f ++ ['%']) cs = true ↔
      (f.map lowerAscii) <+: (cs.map lowerAscii) := by
  induction f with
  | nil =>
      intro cs
      simp only [List.nil_append, List.map_nil]
      rw [likeMatch_percent_all]
      simp [List.nil_prefix]
  | cons a f ih =>
      have ha := hf a (List.mem_cons_self a f)
      have hf' : ∀ c ∈ f, c ≠ '%' ∧ c ≠ '_' :=
        fun c hc => hf c (List.mem_cons_of_mem a hc)
      intro cs
      cases cs with
      | nil =>
          rw [List.cons_append, likeMatch_lit_nil a (f ++ ['%']) ha.1]
          simp
      | cons c cs =>
          rw [List.cons_append, likeMatch_lit_cons a (f ++ ['%']) cs c ha.1 ha.2]
          simp only [List.map_cons, List.cons_prefix_cons]
          rw [Bool.and_eq_true, beq_iff_eq]
          exact and_congr Iff.rfl (ih hf' cs)

theorem suffix_of_map_lower (t' : List Char) (cs : List Char)
    (h : t' <:+ cs.map lowerAscii) :
    ∃ t, t <:+ cs ∧ t.map lowerAscii = t' := by
  rcases h with ⟨s, hs⟩
  rcases List.map_eq_append_iff.mp hs.symm with ⟨l1, l2, rfl, h1, h2⟩
  exact ⟨l2, ⟨l1, rfl⟩, h2⟩

/-- The full `%f%` semantics of the entity filter for wildcard-free `f`:
the ASCII-lowercased filter is an infix of the ASCII-lowercased value. -/
theorem likeMatch_contains_iff (f cs : List Char)
    (hf : ∀ c ∈ f, c ≠ '%' ∧ c ≠ '_') :
    likeMatch ('%' :: (f ++ ['%'])) cs = true ↔
      (f.map lowerAscii) <:+: (cs.map lowerAscii) := by
  rw [likeMatch_percent_iff]
  constructor
  · rintro ⟨t, ht, hm⟩
    have hpre := (likeMatch_lit_percent_iff f hf t).mp hm
    exact List.infix_iff_prefix_suffix.mpr ⟨t.map lowerAscii, hpre, List.IsSuffix.map lowerAscii ht⟩
  · intro h
    rcases List.infix_iff_prefix_suffix.mp h with ⟨t', hpre, hsuf⟩
    rcases suffix_of_map_lower t' cs hsuf with ⟨t, hts, rfl⟩
    exact ⟨t, hts, (likeMatch_lit_percent_iff f hf t).mpr hpre⟩

/-- C8 counterexample: the filter string `ngo` matches the stored record
`NGO001` through the dashboard `WHERE` clause (SQLite's default `LIKE` is
ASCII-case-insensitive), although `ngo` is not a case-sensitive substring
of `NGO001` — so "substring, case-sensitive as stored" is false. -/
theorem C8_counterexample_case_insensitive :
    matchesFilters ⟨none, none, some "ngo"⟩ ⟨"NGO001", "2024-01", 1, 1, ⟨1, 1⟩⟩ = true ∧
    ¬ ("ngo".toList <:+: "NGO001".toList) := by
  constructor
  · simp [matchesFilters, likePattern, likeMatch, lowerAscii]
  · decide

/-- C8 (amended): for a dashboard query with only the entity filter set,
to a string free of the SQL `LIKE` wildcards `%` and `_`, a stored
record matches the shared `WHERE` clause of `getFilteredReports` and
`getFilteredDashboardStats` exactly when the filter string is a
substring of the stored `entity_id` under ASCII case folding — substring
matching that is case-insensitive for ASCII letters, not case-sensitive. -/
theorem C8_entity_filter_substring (p : String) (r : ReportData)
    (hp : ∀ c ∈ p.toList, c ≠ '%' ∧ c ≠ '_') :
    matchesFilters ⟨none, none, some p⟩ r = true ↔
      (p.toList.map lowerAscii) <:+: (r.ngo_id.toList.map lowerAscii) := by
  show (true && (true && likeMatch (likePattern p) r.ngo_id.toList)) = true ↔ _
  rw [Bool.true_and, Bool.true_and]
  exact likeMatch_contains_iff p.toList r.ngo_id.toList hp

/-- Witness for C8 (amended) at the filter `ngo` against the stored
entity `NGO001`: both sides of the equivalence hold. -/
theorem C8_entity_filter_substring_witness :
    matchesFilters ⟨none, none, some "ngo"⟩ ⟨"NGO001", "2024-01", 1, 1, ⟨1, 1⟩⟩ = true ↔
      ("ngo".toList.map lowerAscii) <:+: ("NGO001".toList.map lowerAscii) :=
  C8_entity_filter_substring "ngo" ⟨"NGO001", "2024-01", 1, 1, ⟨1, 1⟩⟩ (by decide)

/-- Witness for C2: two well-formed rows under the exact required header
complete with all counters equal to 2. -/
theorem C2_well_formed_upload_completes_witness :
    ∃ final,
      (processCSVFile (fun _ => none)
        ["ngo_id", "month", "people_helped", "events_conducted", "funds_utilized"]
        [["NGO001", "2024-01", "150", "5", "50000"], ["NGO002", "2024-01", "10", "2", "3.5"]]
        []).states.getLast? = some final ∧
      final.status = "completed" ∧
      final.total_rows =
        [["NGO001", "2024-01", "150", "5", "50000"], ["NGO002", "2024-01", "10", "2", "3.5"]].length ∧
      final.processed_rows =
        [["NGO001", "2024-01", "150", "5", "50000"], ["NGO002", "2024-01", "10", "2", "3.5"]].length ∧
      final.successful_rows + final.failed_rows =
        [["NGO001", "2024-01", "150", "5", "50000"], ["NGO002", "2024-01", "10", "2", "3.5"]].length :=
  C2_well_formed_upload_completes (fun _ => none)
    ["ngo_id", "month", "people_helped", "events_conducted", "funds_utilized"]
    [["NGO001", "2024-01", "150", "5", "50000"], ["NGO002", "2024-01", "10", "2", "3.5"]] []
    (by decide) (by decide) (by decide)
